import Mathlib

/-!
Verification of the client queue/workflow orchestration core of the DASO
bank-branch queue-management frontend (React/JS).  Each JavaScript handler
that the specification talks about is embedded as a pure Lean function over
an explicit state record; asynchronous handlers are modelled by the
synchronous state updates performed up to (and including) the point where
the network request is issued, returning the new state together with the
request payload (or none when no request is issued).  JavaScript-specific
semantics (truthiness of 0 and of the empty string, strict inequality
against undefined, first-occurrence String.replace) are modelled explicitly
by small js-prefixed helper functions.
-/

namespace DASO

/-! ## Queue snapshot reducer (StaffPage.fetchQueue) -/

/-- Queue entry status values used by the backend contract. -/
inductive Status where
  | waiting
  | checked_in
  | in_progress
  | completed
  | no_show
deriving DecidableEq, Repr

/-- One entry of the polled queue snapshot.  Only the fields read by
fetchQueue are modelled. -/
structure QueueEntry where
  id : Nat
  status : Status
  assigned_counter : Option Nat
deriving DecidableEq, Repr

/-- JS a || b where both sides are optional objects: an object is truthy,
null and undefined are falsy. -/
def jsOrEntry (a b : Option QueueEntry) : Option QueueEntry :=
  match a with
  | some x => some x
  | none => b

/-- JS a || b where both sides are optional numbers, as in the source
expression myCustomer?.id || nextCustomer?.id : both undefined and the
number 0 are falsy in JavaScript. -/
def jsOrId (a b : Option Nat) : Option Nat :=
  match a with
  | some n => if n = 0 then b else some n
  | none => b

/-- JS strict inequality n !== excl where excl may be undefined; a number
is never strictly equal to undefined. -/
def jsNeqId (n : Nat) (excl : Option Nat) : Bool :=
  match excl with
  | some m => n != m
  | none => true

/-- Test used by fetchQueue for entries still waiting to be served. -/
def isActive (s : Status) : Bool :=
  s == Status.waiting || s == Status.checked_in

/-- data.queue.find(q => q.status === 'in_progress' && q.assigned_counter === 1),
with the counter identity kept as a parameter (the source instantiates it
with the simulated counter 1). -/
def myCustomer (queue : List QueueEntry) (counter : Nat) : Option QueueEntry :=
  queue.find? fun q => q.status == Status.in_progress && q.assigned_counter == some counter

/-- The source computes nextCustomer only when no in-progress customer was
found: !myCustomer ? queue.find(waiting or checked_in) : null. -/
def nextCustomer (queue : List QueueEntry) (counter : Nat) : Option QueueEntry :=
  match myCustomer queue counter with
  | some _ => none
  | none => queue.find? fun q => isActive q.status

/-- setCurrentCustomer(myCustomer || nextCustomer). -/
def currentCustomer (queue : List QueueEntry) (counter : Nat) : Option QueueEntry :=
  jsOrEntry (myCustomer queue counter) (nextCustomer queue counter)

/-- The id excluded from the remaining queue, from the source expression
myCustomer?.id || nextCustomer?.id (JS || with falsy 0 and undefined). -/
def excludedId (queue : List QueueEntry) (counter : Nat) : Option Nat :=
  jsOrId ((myCustomer queue counter).map QueueEntry.id)
    ((nextCustomer queue counter).map QueueEntry.id)

/-- queue.filter(q => q.id !== (myCustomer?.id || nextCustomer?.id) &&
(q.status === 'waiting' || q.status === 'checked_in')). -/
def remainingQueue (queue : List QueueEntry) (counter : Nat) : List QueueEntry :=
  queue.filter fun q => jsNeqId q.id (excludedId queue counter) && isActive q.status

/-- The staff view derived from one queue snapshot: the current customer
and the remaining queue, exactly as fetchQueue stores them. -/
def deriveView (queue : List QueueEntry) (counter : Nat) :
    Option QueueEntry × List QueueEntry :=
  (currentCustomer queue counter, remainingQueue queue counter)

/-! ## JavaScript string primitives -/

/-- Prefix test on character lists (needle first), used to model JS
String.prototype.includes. -/
def beginsWith : List Char → List Char → Bool
  | [], _ => true
  | _ :: _, [] => false
  | a :: as, b :: bs => a == b && beginsWith as bs

/-- Containment scan behind jsIncludes. -/
def includesFrom (needle : List Char) : List Char → Bool
  | [] => needle.isEmpty
  | c :: t => beginsWith needle (c :: t) || includesFrom needle t

/-- JS hay.includes(needle). -/
def jsIncludes (hay needle : String) : Bool :=
  includesFrom needle.data hay.data

/-- JS String.prototype.toLowerCase (the ASCII range used by the catalog
names). -/
def jsToLower (s : String) : String :=
  String.mk (s.data.map Char.toLower)

/-- Replace the first occurrence of a character. -/
def replaceFirstChar (pat repl : Char) : List Char → List Char
  | [] => []
  | c :: t => if c = pat then repl :: t else c :: replaceFirstChar pat repl t

/-- JS s.replace(pat, repl) with a single-character string pattern: only
the first occurrence is replaced. -/
def jsReplaceFirst (s : String) (pat repl : Char) : String :=
  String.mk (replaceFirstChar pat repl s.data)

/-- Decimal digit characters of n, most significant first; fuel-based
translation of the repeated-division loop (fuel n+1 always suffices, since
n/10 < n for n at least 10). -/
def natToCharsAux : Nat → Nat → List Char
  | 0, _ => []
  | fuel + 1, n =>
    if n < 10 then [Nat.digitChar n]
    else natToCharsAux fuel (n / 10) ++ [Nat.digitChar (n % 10)]

/-- JS Number.prototype.toString for the non-negative integers this code
feeds it. -/
def jsNumToString (n : Nat) : String :=
  String.mk (natToCharsAux (n + 1) n)

/-- JS String(n).padStart(2, '0'). -/
def pad2 (n : Nat) : String :=
  if 2 ≤ (jsNumToString n).length then jsNumToString n
  else String.mk ('0' :: (jsNumToString n).data)

/-- Value of a run of decimal digit characters. -/
def digitsVal (l : List Char) : Nat :=
  l.foldl (fun a c => 10 * a + (c.toNat - 48)) 0

/-- JS parseInt applied to the all-digit strings this code feeds it: the
base-10 value of the leading digit run. -/
def jsParseInt (s : String) : Nat :=
  digitsVal (s.data.takeWhile Char.isDigit)

/-- Splitting scan behind jsSplit, with the accumulator of the current
piece. -/
def splitCharAux (sep : Char) : List Char → List Char → List (List Char)
  | [], acc => [acc.reverse]
  | c :: rest, acc =>
    if c = sep then acc.reverse :: splitCharAux sep rest []
    else splitCharAux sep rest (c :: acc)

/-- JS s.split(sep) with a single-character separator. -/
def jsSplit (sep : Char) (s : String) : List String :=
  (splitCharAux sep s.data []).map String.mk

/-! ## Booking wizard (WalkInForm) -/

/-- Wizard mode: walk-in kiosk flow or remote pre-booking flow. -/
inductive Mode where
  | walk_in
  | pre_book
deriving DecidableEq, Repr

/-- One service catalog entry, as used for selection and voice matching. -/
structure ServiceCatalogEntry where
  id : String
  name : String
deriving DecidableEq, Repr

/-- One generated pre-booking time slot. -/
structure TimeSlot where
  time : String
  available : Bool
deriving DecidableEq, Repr

/-- The WalkInForm component state: one field per useState hook that the
modelled handlers read or write, plus the mode prop. -/
structure WizardState where
  step : Nat
  mobile : String
  name : String
  age : Nat
  isDisabled : Bool
  selectedService : Option String
  isListening : Bool
  services : List ServiceCatalogEntry
  loading : Bool
  error : String
  selectedDate : String
  selectedTimeSlot : Option String
  availableSlots : List TimeSlot
  mode : Mode
deriving DecidableEq, Repr

/-- Payload of the bookSlot request. -/
structure BookingRequest where
  mobile : String
  name : String
  age : Nat
  is_disabled : Bool
  service_type : Option String
  booking_type : String
  scheduled_time : Option String
deriving DecidableEq, Repr

/-- JS a || b on strings: the empty string is falsy. -/
def jsOrString (a b : String) : String :=
  if a = "" then b else a

/-- JS a || b on optional strings (serviceId || selectedService). -/
def jsOrOptString (a b : Option String) : Option String :=
  match a with
  | some s => if s = "" then b else some s
  | none => b

/-- JS falsiness of an optional string (undefined, null and the empty
string are falsy). -/
def jsIsFalsyStr (a : Option String) : Bool :=
  match a with
  | some s => s == ""
  | none => true

/-- Gregorian leap-year rule, as implemented by the JS Date object. -/
def isLeap (y : Nat) : Bool :=
  (y % 4 == 0 && y % 100 != 0) || y % 400 == 0

/-- Number of days of month m (1 to 12) of year y. -/
def daysInMonth (y m : Nat) : Nat :=
  if m = 2 then (if isLeap y then 29 else 28)
  else if m = 4 ∨ m = 6 ∨ m = 9 ∨ m = 11 then 30
  else 31

/-- A normalized broken-down local date-time (month 1-based). -/
structure JsDate where
  year : Nat
  month : Nat
  day : Nat
  hour : Nat
  minute : Nat
deriving DecidableEq, Repr

/-- Forward day-overflow normalization; the fuel bounds the number of
month carries (fuel = d suffices because every carry removes at least 28
days). -/
def rollDays : Nat → Nat → Nat → Nat → Nat × Nat × Nat
  | 0, y, m, d => (y, m, d)
  | fuel + 1, y, m, d =>
    if d ≤ daysInMonth y m then (y, m, d)
    else if m = 12 then rollDays fuel (y + 1) 1 (d - daysInMonth y m)
    else rollDays fuel y (m + 1) (d - daysInMonth y m)

/-- Model of new Date(year, month0, day, hour, minute) followed by the
local getters getFullYear, getMonth, getDate, getHours and getMinutes: the
components are normalized by forward carry and no timezone shift is
applied, because the local constructor and the local getters read the same
wall clock.  Modelled for the non-negative component values produced by
the date and slot pickers (month0 is the 0-based month). -/
def mkJsDate (y mo0 d hh mi : Nat) : JsDate :=
  let mi2 := mi % 60
  let hh1 := hh + mi / 60
  let hh2 := hh1 % 24
  let d1 := d + hh1 / 24
  let y1 := y + mo0 / 12
  let m1 := mo0 % 12 + 1
  let r := rollDays d1 y1 m1 d1
  ⟨r.1, r.2.1, r.2.2, hh2, mi2⟩

/-- scheduledTime construction inside handleBookSlot: split the chosen
date and slot strings, build a local Date, and manually format it back as
YYYY-MM-DDTHH:mm:00 (the source comment: preserve local time). -/
def mkScheduledTime (selectedDate selectedTimeSlot : String) : String :=
  let dateParts := jsSplit '-' selectedDate
  let timeParts := jsSplit ':' selectedTimeSlot
  let dt := mkJsDate
    (jsParseInt (dateParts.getD 0 ""))
    (jsParseInt (dateParts.getD 1 "") - 1)
    (jsParseInt (dateParts.getD 2 ""))
    (jsParseInt (timeParts.getD 0 ""))
    (jsParseInt (timeParts.getD 1 ""))
  jsNumToString dt.year ++ "-" ++ pad2 dt.month ++ "-" ++ pad2 dt.day ++ "T" ++
    pad2 dt.hour ++ ":" ++ pad2 dt.minute ++ ":00"

/-- The wall-clock date string YYYY-MM-DD as produced by the date input
for a calendar date, built from the same decimal printing the code uses. -/
def dateStr (y m d : Nat) : String :=
  String.mk ((jsNumToString y).data ++ ('-' :: ((pad2 m).data ++ ('-' :: (pad2 d).data))))

/-- The wall-clock slot string HH:mm as produced by the slot generator. -/
def timeStr (hh mi : Nat) : String :=
  String.mk ((pad2 hh).data ++ (':' :: (pad2 mi).data))

/-- handleBookSlot: the synchronous part of the submission handler, up to
and including issuing the bookSlot request; returns the updated state and
the request payload (none when validation rejected the submission).  The
source applies no loading guard here. -/
def handleBookSlot (st : WizardState) (serviceId : Option String) :
    WizardState × Option BookingRequest :=
  if st.mobile = "" ∨ st.mobile.length < 10 then
    ({ st with error := "Please enter a valid mobile number" }, none)
  else if st.mode = Mode.pre_book ∧ jsIsFalsyStr st.selectedTimeSlot = true then
    ({ st with error := "Please select a time slot" }, none)
  else
    let scheduledTime : Option String :=
      match st.mode, st.selectedTimeSlot with
      | Mode.pre_book, some slot =>
        if slot = "" then none else some (mkScheduledTime st.selectedDate slot)
      | _, _ => none
    ({ st with loading := true, error := "" },
      some {
        mobile := st.mobile
        name := jsOrString st.name
          (if st.mode = Mode.pre_book then "Pre-booked Customer" else "Walk-in Customer")
        age := st.age
        is_disabled := st.isDisabled
        service_type := jsOrOptString serviceId st.selectedService
        booking_type := if st.mode = Mode.pre_book then "pre_booked" else "walk_in"
        scheduled_time := scheduledTime })

/-- Predicate of the catalog search in handleVoiceResult: the lowered
transcript contains the entry name lowered, or the entry name with its
first underscore replaced by a space, lowered. -/
def voiceMatches (text : String) (s : ServiceCatalogEntry) : Bool :=
  jsIncludes text (jsToLower s.name) ||
    jsIncludes text (jsToLower (jsReplaceFirst s.name '_' ' '))

/-- services.find over the catalog. -/
def findService (services : List ServiceCatalogEntry) (text : String) :
    Option ServiceCatalogEntry :=
  services.find? (voiceMatches text)

/-- The found-service branch of handleVoiceResult: store the selection,
stop listening, and in walk_in mode with a 10-digit mobile auto-submit. -/
def handleVoiceFound (st : WizardState) (s : ServiceCatalogEntry) :
    WizardState × Option BookingRequest :=
  if st.mobile.length = 10 ∧ st.mode = Mode.walk_in then
    handleBookSlot { st with selectedService := some s.id, isListening := false } (some s.id)
  else ({ st with selectedService := some s.id, isListening := false }, none)

/-- handleVoiceResult: the speech-recognition result callback.  The source
applies no step guard and no loading guard here; the callback is
registered on the recognition object and can be delivered late (the
VoiceInput cleanup calls recognition.stop(), which still fires a final
result), so it is modelled as deliverable in every state. -/
def handleVoiceResult (st : WizardState) (transcript : String) :
    WizardState × Option BookingRequest :=
  match findService st.services (jsToLower transcript) with
  | none => (st, none)
  | some s => handleVoiceFound st s

/-- Stored mobile value after the onChange of the mobile input: non-digit
characters stripped, then sliced to the first 10 characters. -/
def normalizeMobile (raw : String) : String :=
  String.mk ((raw.data.filter Char.isDigit).take 10)

/-- Mobile input onChange; the input is rendered only on step 1. -/
def setMobileInput (st : WizardState) (raw : String) : WizardState :=
  if st.step = 1 then { st with mobile := normalizeMobile raw }
  else st

/-- Next Step button of step 1: advance only on an exactly-10-digit stored
mobile, otherwise report a validation error and stay. -/
def nextStepGate (st : WizardState) : WizardState :=
  if st.step ≠ 1 then st
  else if st.mobile.length = 10 then { st with step := 2 }
  else { st with error := "Please enter a valid 10-digit mobile number" }

/-- Step-2 service button tap: rendered only on step 2 and disabled while
loading; in pre_book mode it advances to slot selection, in walk_in mode
it submits immediately. -/
def clickService (st : WizardState) (svc : ServiceCatalogEntry) :
    WizardState × Option BookingRequest :=
  if st.step ≠ 2 ∨ st.loading = true then (st, none)
  else
    let st2 := { st with selectedService := some svc.id }
    if st.mode = Mode.pre_book then ({ st2 with step := 3 }, none)
    else handleBookSlot st2 (some svc.id)

/-- Step-3 slot button tap: rendered only on step 3 in pre_book mode and
disabled when the slot is not available. -/
def clickSlot (st : WizardState) (slot : TimeSlot) : WizardState :=
  if st.step ≠ 3 ∨ st.mode ≠ Mode.pre_book ∨ slot.available = false then st
  else { st with selectedTimeSlot := some slot.time }

/-- Step-3 Confirm Appointment button: rendered only on step 3 in pre_book
mode, disabled while loading or while no slot is selected; submits with no
explicit service id. -/
def confirmAppointment (st : WizardState) : WizardState × Option BookingRequest :=
  if st.step ≠ 3 ∨ st.mode ≠ Mode.pre_book ∨ st.loading = true ∨
      jsIsFalsyStr st.selectedTimeSlot = true then
    (st, none)
  else handleBookSlot st none

/-- Loop body of generateSlots: while (start < 17) push start:00 and
start:30; fuel-based translation of the loop (17 iterations always
suffice). -/
def slotTimesAux : Nat → Nat → List String
  | 0, _ => []
  | fuel + 1, start =>
    if start < 17 then
      (pad2 start ++ ":00") :: (pad2 start ++ ":30") :: slotTimesAux fuel (start + 1)
    else []

/-- The generated slot times, starting the loop at 9. -/
def slotTimes : List String :=
  slotTimesAux 17 9

/-- generateSlots: the times are fixed; only the availability flags are
random, modelled by an arbitrary draw per position. -/
def generateSlots (avail : Nat → Bool) : List TimeSlot :=
  slotTimes.enum.map fun p => { time := p.2, available := avail p.1 }

/-- Minute-of-day value of an HH:mm string, for stating slot ordering. -/
def slotMinutes (s : String) : Nat :=
  60 * jsParseInt ((jsSplit ':' s).getD 0 "") + jsParseInt ((jsSplit ':' s).getD 1 "")

/-- Strict ascending order of a list of numbers, as an executable test. -/
def ascending : List Nat → Bool
  | [] => true
  | [_] => true
  | a :: b :: t => a < b && ascending (b :: t)

/-- A reference wizard state used by concrete witnesses. -/
def testState : WizardState :=
  { step := 1, mobile := "", name := "", age := 30, isDisabled := false,
    selectedService := none, isListening := false, services := [], loading := false,
    error := "", selectedDate := "", selectedTimeSlot := none, availableSlots := [],
    mode := Mode.walk_in }

/-- Modelled from the spec: the underscore-to-space variant of a catalog
name as the specification words it, with every underscore replaced by a
space (kept for comparison with the source's first-occurrence replace). -/
def specUnderscoreToSpace (s : String) : String :=
  String.mk (s.data.map fun c => if c = '_' then ' ' else c)

/-- Fixture: step 2 of a walk-in wizard with a valid mobile and the
Cash_Deposit catalog entry. -/
def stWalkInStep2 : WizardState :=
  { testState with
    step := 2
    mobile := "9876543210"
    services := [⟨"Cash_Deposit", "Cash_Deposit"⟩] }

/-- Fixture: a catalog whose only entry has two underscores in its name. -/
def stTwoUnderscores : WizardState :=
  { testState with
    step := 2
    mobile := "9876543210"
    services := [⟨"Fixed_Deposit_Gold", "Fixed_Deposit_Gold"⟩] }

/-- Fixture: a pre-book wizard already on step 3 with a service and a slot
chosen, while a recognition result from step 2 is still pending. -/
def stLeftStep2 : WizardState :=
  { testState with
    step := 3
    mode := Mode.pre_book
    mobile := "9876543210"
    selectedService := some ("Cash_Deposit")
    selectedTimeSlot := some ("09:00")
    services := [⟨"Cash_Deposit", "Cash_Deposit"⟩, ⟨"Loan_Inquiry", "Loan_Inquiry"⟩] }

/-- Fixture: step 2 of a walk-in wizard while a booking request is already
in flight. -/
def stRequestInFlight : WizardState :=
  { testState with
    step := 2
    mobile := "9876543210"
    loading := true
    services := [⟨"Cash_Deposit", "Cash_Deposit"⟩] }

/-- Fixture: a pre-book wizard on step 3 with no slot selected. -/
def stPrebookNoSlot : WizardState :=
  { testState with
    step := 3
    mode := Mode.pre_book
    mobile := "9876543210"
    selectedService := some ("Cash_Deposit")
    availableSlots := [⟨"09:00", false⟩, ⟨"09:30", true⟩] }

/-! ## Staff service console (CurrentCustomer) -/

/-- The customer record as read by the CurrentCustomer component (only the
fields the modelled logic reads). -/
structure Customer where
  id : Nat
  start_time : Option String
deriving DecidableEq, Repr

/-- The three staff actions posted by the console. -/
inductive StaffAction where
  | start
  | complete
  | no_show
deriving DecidableEq, Repr

/-- JS !!customer.start_time: undefined and the empty string are falsy. -/
def isStarted (c : Customer) : Bool :=
  match c.start_time with
  | some s => s != ""
  | none => false

/-- The staff actions the rendered console can dispatch: none without a
customer; Start Service and No Show before the service has started;
Complete Transaction once it has; every button is disabled while an action
request is in flight. -/
def allowedActions (customer : Option Customer) (loading : Bool) : List StaffAction :=
  match customer with
  | none => []
  | some c =>
    if loading then []
    else if isStarted c then [StaffAction.complete]
    else [StaffAction.start, StaffAction.no_show]

/-! ## Check-in controller (CheckInScreen) -/

/-- The status values of the check-in screen state machine. -/
inductive CheckInStatus where
  | scanning
  | input
  | processing
  | success
  | error
deriving DecidableEq, Repr

/-- Payload of the simulateProximity response. -/
structure ProximityResult where
  success : Bool
  message : Option String
deriving DecidableEq, Repr

/-- The check-in screen state (status, message and stored details). -/
structure CheckInState where
  status : CheckInStatus
  message : Option String
  details : Option ProximityResult
deriving DecidableEq, Repr

/-- Fixture: the check-in state right after the lookup request left. -/
def checkinProcessing : CheckInState :=
  { status := CheckInStatus.processing
    message := some ("Verifying appointment...")
    details := none }

/-- JS result.message || default: undefined and the empty string are
falsy. -/
def jsOrMessage (m : Option String) (dflt : String) : String :=
  match m with
  | some s => if s = "" then dflt else s
  | none => dflt

/-- Dispatch on the lookup response inside handleMobileSubmit: a success
response reaches the success state, any other response the error state
with the server message or the default fallback. -/
def handleLookupResult (st : CheckInState) (r : ProximityResult) : CheckInState :=
  if r.success then
    { st with status := CheckInStatus.success, details := some r, message := r.message }
  else
    { st with
      status := CheckInStatus.error
      message := some (jsOrMessage r.message ("No appointment found")) }

/-! ## Helper lemmas for the queue reducer -/

theorem isActive_ne_terminal {s : Status} (h : isActive s = true) :
    s ≠ Status.completed ∧ s ≠ Status.no_show := by
  cases s <;> simp_all [isActive]

theorem excludedId_eq_current (queue : List QueueEntry) (counter : Nat)
    (h0 : (myCustomer queue counter).map QueueEntry.id ≠ some 0) :
    excludedId queue counter = (currentCustomer queue counter).map QueueEntry.id := by
  unfold excludedId currentCustomer nextCustomer jsOrEntry jsOrId
  cases hM : myCustomer queue counter with
  | some m =>
    rw [hM] at h0
    have hm0 : m.id ≠ 0 := by
      intro h
      exact h0 (by simp [h])
    simp [hm0]
  | none => cases queue.find? (fun q => isActive q.status) <;> simp

/-- C1 (amended): the staff view's queue reduction sets current to the first
in-progress entry assigned to the counter, else to the first waiting or
checked-in entry in input order; and, provided the in-progress current
entry (if any) does not carry the JavaScript-falsy id 0, remaining is
exactly the waiting/checked-in entries whose id differs from current's id,
so it never contains current's id and never a completed/no-show entry. -/
theorem deriveView_correct (queue : List QueueEntry) (counter : Nat)
    (h0 : (myCustomer queue counter).map QueueEntry.id ≠ some 0) :
    (∀ c, queue.find? (fun q => q.status == Status.in_progress &&
        q.assigned_counter == some counter) = some c →
      (deriveView queue counter).1 = some c)
    ∧ (queue.find? (fun q => q.status == Status.in_progress &&
        q.assigned_counter == some counter) = none →
      (deriveView queue counter).1 = queue.find? fun q => isActive q.status)
    ∧ ((deriveView queue counter).2 = queue.filter fun q =>
        isActive q.status && jsNeqId q.id ((deriveView queue counter).1.map QueueEntry.id))
    ∧ (∀ q ∈ (deriveView queue counter).2,
        (q.status ≠ Status.completed ∧ q.status ≠ Status.no_show)
        ∧ ∀ c, (deriveView queue counter).1 = some c → q.id ≠ c.id) := by
  have hexcl := excludedId_eq_current queue counter h0
  have hfilter : (deriveView queue counter).2 = queue.filter fun q =>
      isActive q.status && jsNeqId q.id ((deriveView queue counter).1.map QueueEntry.id) := by
    show remainingQueue queue counter = _
    unfold remainingQueue
    rw [hexcl]
    exact List.filter_congr fun q _ => Bool.and_comm _ _
  refine ⟨?_, ?_, hfilter, ?_⟩
  · intro c hc
    show currentCustomer queue counter = some c
    unfold currentCustomer jsOrEntry
    rw [show myCustomer queue counter = some c from hc]
  · intro hc
    show currentCustomer queue counter = _
    unfold currentCustomer jsOrEntry nextCustomer
    rw [show myCustomer queue counter = none from hc]
  · intro q hq
    rw [hfilter] at hq
    obtain ⟨-, hpred⟩ := List.mem_filter.mp hq
    obtain ⟨hact, hne⟩ := Bool.and_eq_true_iff.mp hpred
    refine ⟨isActive_ne_terminal hact, ?_⟩
    intro c hcur
    rw [hcur] at hne
    simpa [jsNeqId] using hne

/-- C1 counterexample: with an in-progress entry of id 0 at the counter and
a waiting entry sharing id 0, JavaScript's || treats the id 0 as falsy,
the id-exclusion filter is skipped, and remaining contains current's id. -/
theorem deriveView_id_zero_cex :
    (deriveView [⟨0, Status.in_progress, some 1⟩, ⟨0, Status.waiting, none⟩] 1).1 =
      some ⟨0, Status.in_progress, some 1⟩
    ∧ (⟨0, Status.waiting, none⟩ : QueueEntry) ∈
        (deriveView [⟨0, Status.in_progress, some 1⟩, ⟨0, Status.waiting, none⟩] 1).2
    ∧ (0 : Nat) ∈
        ((deriveView [⟨0, Status.in_progress, some 1⟩, ⟨0, Status.waiting, none⟩] 1).2.map
          QueueEntry.id) := by
  decide

/-- C1 witness: the amended theorem evaluated on the spec's Scenario A
queue. -/
theorem deriveView_correct_witness :
    (deriveView [⟨1, Status.in_progress, some 1⟩, ⟨2, Status.waiting, none⟩,
        ⟨3, Status.checked_in, none⟩] 1).1 = some ⟨1, Status.in_progress, some 1⟩
    ∧ (deriveView [⟨1, Status.in_progress, some 1⟩, ⟨2, Status.waiting, none⟩,
        ⟨3, Status.checked_in, none⟩] 1).2 =
      [⟨2, Status.waiting, none⟩, ⟨3, Status.checked_in, none⟩] := by
  have h := deriveView_correct [⟨1, Status.in_progress, some 1⟩, ⟨2, Status.waiting, none⟩,
    ⟨3, Status.checked_in, none⟩] 1 (by decide)
  exact ⟨h.1 _ rfl, (h.2.2.1).trans (by decide)⟩

/-- C2: the complete action can be dispatched only when the current
customer's start_time is present (a non-empty timestamp), and while
start_time is absent only the start and no_show actions can be
dispatched. -/
theorem complete_unreachable_unstarted (customer : Option Customer) (loading : Bool) :
    (StaffAction.complete ∈ allowedActions customer loading →
      ∃ c s, customer = some c ∧ c.start_time = some s ∧ s ≠ "")
    ∧ (∀ c, customer = some c → c.start_time = none →
        ∀ a ∈ allowedActions customer loading,
          a = StaffAction.start ∨ a = StaffAction.no_show) := by
  constructor
  · intro hmem
    cases customer with
    | none => simp [allowedActions] at hmem
    | some c =>
      cases loading with
      | true => simp [allowedActions] at hmem
      | false =>
        cases hst : c.start_time with
        | none => simp [allowedActions, isStarted, hst] at hmem
        | some s =>
          by_cases hs : s = ""
          · simp [allowedActions, isStarted, hst, hs] at hmem
          · exact ⟨c, s, rfl, hst, hs⟩
  · intro c hc hst a ha
    subst hc
    cases loading with
    | true => simp [allowedActions] at ha
    | false =>
      simp [allowedActions, isStarted, hst] at ha
      rcases ha with h | h
      · exact Or.inl h
      · exact Or.inr h

/-- C2 witness: with a started customer the only dispatchable action is
complete, and the theorem yields its non-empty start_time. -/
theorem complete_unreachable_unstarted_witness :
    ∃ c s, (some ⟨7, some ("2024-01-01T10:00:00")⟩ : Option Customer) = some c
      ∧ c.start_time = some s ∧ s ≠ "" :=
  (complete_unreachable_unstarted (some ⟨7, some ("2024-01-01T10:00:00")⟩) false).1 (by decide)

/-- C3: the stored mobile is the raw input with non-digit characters
stripped and truncated to at most 10 digits, and the step-1 gate advances
to step 2 exactly when the stored mobile has length 10; otherwise the
wizard stays on step 1 and reports a validation error. -/
theorem mobile_gate_correct (st : WizardState) (raw : String) (h1 : st.step = 1) :
    (setMobileInput st raw).mobile = String.mk ((raw.data.filter Char.isDigit).take 10)
    ∧ (setMobileInput st raw).mobile.length ≤ 10
    ∧ ((nextStepGate st).step = 2 ↔ st.mobile.length = 10)
    ∧ (st.mobile.length ≠ 10 →
        (nextStepGate st).step = 1 ∧ (nextStepGate st).error ≠ "") := by
  have hset : (setMobileInput st raw).mobile
      = String.mk ((raw.data.filter Char.isDigit).take 10) := by
    simp [setMobileInput, h1, normalizeMobile]
  refine ⟨hset, ?_, ?_, ?_⟩
  · rw [hset]
    show ((raw.data.filter Char.isDigit).take 10).length ≤ 10
    simp [List.length_take]
  · unfold nextStepGate
    rw [if_neg (by simp [h1])]
    by_cases hm : st.mobile.length = 10
    · rw [if_pos hm]
      simp [hm]
    · rw [if_neg hm]
      simp [hm, h1]
  · intro hm
    unfold nextStepGate
    rw [if_neg (by simp [h1]), if_neg hm]
    refine ⟨h1, ?_⟩
    show ("Please enter a valid 10-digit mobile number" : String) ≠ ""
    decide

/-- C3 witness: the 11-digit input of the spec's test stores a 10-digit
mobile, and the gate behaviour is evaluated on the reference state. -/
theorem mobile_gate_correct_witness :
    (setMobileInput testState ("98765432101")).mobile
      = String.mk ((("98765432101" : String).data.filter Char.isDigit).take 10)
    ∧ (setMobileInput testState ("98765432101")).mobile.length ≤ 10
    ∧ ((nextStepGate testState).step = 2 ↔ (testState.mobile.length = 10))
    ∧ (testState.mobile.length ≠ 10 →
        (nextStepGate testState).step = 1 ∧ (nextStepGate testState).error ≠ "") :=
  mobile_gate_correct testState ("98765432101") rfl

/-- C4: in pre_book mode tapping an unavailable slot is a no-op (the
button is disabled), and any submission attempt without a selected slot is
rejected with a validation error and issues no booking request, both in
the submission handler and at the disabled confirm button. -/
theorem prebook_slot_guard (st : WizardState) (slot : TimeSlot) (svc : Option String) :
    (slot.available = false → clickSlot st slot = st)
    ∧ (st.mode = Mode.pre_book → st.selectedTimeSlot = none →
        (handleBookSlot st svc).2 = none ∧ (handleBookSlot st svc).1.error ≠ "")
    ∧ (st.selectedTimeSlot = none → (confirmAppointment st).2 = none) := by
  refine ⟨?_, ?_, ?_⟩
  · intro hav
    unfold clickSlot
    rw [if_pos (Or.inr (Or.inr hav))]
  · intro hmode hslot
    unfold handleBookSlot
    by_cases hmob : st.mobile = "" ∨ st.mobile.length < 10
    · rw [if_pos hmob]
      refine ⟨rfl, ?_⟩
      show ("Please enter a valid mobile number" : String) ≠ ""
      decide
    · rw [if_neg hmob, if_pos ⟨hmode, by simp [jsIsFalsyStr, hslot]⟩]
      refine ⟨rfl, ?_⟩
      show ("Please select a time slot" : String) ≠ ""
      decide
  · intro hslot
    unfold confirmAppointment
    by_cases hpre : st.step ≠ 3 ∨ st.mode ≠ Mode.pre_book ∨ st.loading = true ∨
        jsIsFalsyStr st.selectedTimeSlot = true
    · rw [if_pos hpre]
    · exact absurd (Or.inr (Or.inr (Or.inr (by simp [jsIsFalsyStr, hslot])))) hpre

/-- C4 witness: the guards evaluated on a pre-book state with no slot
selected and a disabled 09:00 slot. -/
theorem prebook_slot_guard_witness :
    (TimeSlot.available ⟨"09:00", false⟩ = false →
      clickSlot stPrebookNoSlot ⟨"09:00", false⟩ = stPrebookNoSlot)
    ∧ (stPrebookNoSlot.mode = Mode.pre_book → stPrebookNoSlot.selectedTimeSlot = none →
        (handleBookSlot stPrebookNoSlot (some ("Cash_Deposit"))).2 = none
        ∧ (handleBookSlot stPrebookNoSlot (some ("Cash_Deposit"))).1.error ≠ "")
    ∧ (stPrebookNoSlot.selectedTimeSlot = none →
        (confirmAppointment stPrebookNoSlot).2 = none) :=
  prebook_slot_guard stPrebookNoSlot ⟨"09:00", false⟩ (some ("Cash_Deposit"))

/-- C9: a negative lookup response always reaches the error state, carries
the server-supplied message (the default only when none was supplied), and
never reaches success; only a success response reaches the success
state. -/
theorem checkin_negative_result (st : CheckInState) (r : ProximityResult) :
    (r.success = false →
      (handleLookupResult st r).status = CheckInStatus.error
      ∧ (∀ m, r.message = some m → m ≠ "" → (handleLookupResult st r).message = some m)
      ∧ (r.message = none →
          (handleLookupResult st r).message = some ("No appointment found")))
    ∧ ((handleLookupResult st r).status = CheckInStatus.success ↔ r.success = true) := by
  constructor
  · intro hfail
    unfold handleLookupResult
    rw [if_neg (by simp [hfail])]
    refine ⟨rfl, ?_, ?_⟩
    · intro m hm hne
      simp [jsOrMessage, hm, hne]
    · intro hm
      simp [jsOrMessage, hm]
  · unfold handleLookupResult
    cases hs : r.success with
    | true => simp
    | false => simp

/-- C9 witness: the spec's Scenario D response evaluated on the processing
state. -/
theorem checkin_negative_result_witness :
    (handleLookupResult checkinProcessing ⟨false, some ("No appointment found")⟩).status
      = CheckInStatus.error
    ∧ (handleLookupResult checkinProcessing ⟨false, some ("No appointment found")⟩).message
      = some ("No appointment found") := by
  have h := (checkin_negative_result checkinProcessing
    ⟨false, some ("No appointment found")⟩).1 rfl
  exact ⟨h.1, h.2.1 _ rfl (by decide)⟩

theorem handleBookSlot_fst (st : WizardState) (svc : Option String) :
    (handleBookSlot st svc).1.selectedService = st.selectedService
    ∧ (handleBookSlot st svc).1.isListening = st.isListening
    ∧ (handleBookSlot st svc).1.step = st.step := by
  unfold handleBookSlot
  by_cases h1 : st.mobile = "" ∨ st.mobile.length < 10
  · rw [if_pos h1]
    exact ⟨rfl, rfl, rfl⟩
  · rw [if_neg h1]
    by_cases h2 : st.mode = Mode.pre_book ∧ jsIsFalsyStr st.selectedTimeSlot = true
    · rw [if_pos h2]
      exact ⟨rfl, rfl, rfl⟩
    · rw [if_neg h2]
      exact ⟨rfl, rfl, rfl⟩

theorem handleVoiceResult_none (st : WizardState) (t : String)
    (hs : findService st.services (jsToLower t) = none) :
    handleVoiceResult st t = (st, none) := by
  unfold handleVoiceResult
  rw [hs]

theorem handleVoiceResult_found (st : WizardState) (t : String) (s : ServiceCatalogEntry)
    (hs : findService st.services (jsToLower t) = some s) :
    handleVoiceResult st t = handleVoiceFound st s := by
  unfold handleVoiceResult
  rw [hs]

theorem handleBookSlot_submits (st : WizardState) (svc : Option String)
    (hlen : st.mobile.length = 10) (hmode : st.mode = Mode.walk_in) :
    (handleBookSlot st svc).2 ≠ none := by
  have hne : ¬(st.mobile = "" ∨ st.mobile.length < 10) := by
    rintro (h | h)
    · rw [h] at hlen
      exact absurd hlen (by decide)
    · omega
  have hne2 : ¬(st.mode = Mode.pre_book ∧ jsIsFalsyStr st.selectedTimeSlot = true) := by
    rintro ⟨h, -⟩
    rw [hmode] at h
    cases h
  unfold handleBookSlot
  rw [if_neg hne, if_neg hne2]
  simp

/-- C5 (amended): a voice transcript on step 2 is matched case-insensitively
against each catalog entry's name and against the variant with only the
first underscore replaced by a space (JS String.replace with a string
pattern); the first matching entry's id becomes the selection and, in
walk_in mode with a 10-digit stored mobile, submission is auto-triggered;
with no match the state is left unchanged and no error is reported. -/
theorem voice_match_spec (st : WizardState) (t : String) (_h2 : st.step = 2) :
    (findService st.services (jsToLower t) = none → handleVoiceResult st t = (st, none))
    ∧ (∀ s, findService st.services (jsToLower t) = some s →
        (voiceMatches (jsToLower t) s = true
          ∧ ∃ pre post, st.services = pre ++ s :: post
              ∧ ∀ x ∈ pre, voiceMatches (jsToLower t) x = false)
        ∧ (handleVoiceResult st t).1.selectedService = some s.id
        ∧ (handleVoiceResult st t).1.isListening = false
        ∧ (st.mode = Mode.walk_in → st.mobile.length = 10 →
            (handleVoiceResult st t).2 ≠ none)
        ∧ (st.mode = Mode.pre_book ∨ st.mobile.length ≠ 10 →
            handleVoiceResult st t
              = ({ st with selectedService := some s.id, isListening := false }, none))) := by
  constructor
  · intro h
    exact handleVoiceResult_none st t h
  · intro s hs
    have hfirst : voiceMatches (jsToLower t) s = true
        ∧ ∃ pre post, st.services = pre ++ s :: post
            ∧ ∀ x ∈ pre, voiceMatches (jsToLower t) x = false := by
      have h := List.find?_eq_some.mp hs
      obtain ⟨hp, pre, post, heq, hprev⟩ := h
      exact ⟨hp, pre, post, heq, fun x hx => by simpa using hprev x hx⟩
    refine ⟨hfirst, ?_⟩
    rw [handleVoiceResult_found st t s hs]
    unfold handleVoiceFound
    by_cases hcond : st.mobile.length = 10 ∧ st.mode = Mode.walk_in
    · rw [if_pos hcond]
      have hp := handleBookSlot_fst
        { st with selectedService := some s.id, isListening := false } (some s.id)
      refine ⟨hp.1, hp.2.1, ?_, ?_⟩
      · intro hmode hlen
        exact handleBookSlot_submits _ _ hlen hmode
      · intro hor
        rcases hor with hpre | hlen
        · rw [hpre] at hcond
          exact absurd hcond (by rintro ⟨-, h⟩; cases h)
        · exact absurd hcond (by rintro ⟨h, -⟩; exact hlen h)
    · rw [if_neg hcond]
      refine ⟨rfl, rfl, ?_, fun _ => rfl⟩
      intro hmode hlen
      exact absurd ⟨hlen, hmode⟩ hcond

/-- C5 counterexample: a catalog name with two underscores.  The spec's
underscore-to-space variant of the name is contained in the transcript, yet
the handler (which replaces only the first underscore) finds no match and
leaves the state unchanged with no selection. -/
theorem voice_underscore_variant_cex :
    jsIncludes (jsToLower ("fixed deposit gold please"))
      (jsToLower (specUnderscoreToSpace ("Fixed_Deposit_Gold"))) = true
    ∧ handleVoiceResult stTwoUnderscores ("fixed deposit gold please")
        = (stTwoUnderscores, none)
    ∧ (handleVoiceResult stTwoUnderscores ("fixed deposit gold please")).1.selectedService
        = none := by
  decide

/-- C5 witness: the spec's Scenario C transcript selects Cash_Deposit on
the step-2 walk-in state and auto-triggers submission. -/
theorem voice_match_spec_witness :
    (handleVoiceResult stWalkInStep2 ("cash deposit please")).1.selectedService
      = some ("Cash_Deposit")
    ∧ (handleVoiceResult stWalkInStep2 ("cash deposit please")).2 ≠ none := by
  have h := (voice_match_spec stWalkInStep2 ("cash deposit please") rfl).2
    ⟨"Cash_Deposit", "Cash_Deposit"⟩ (by decide)
  exact ⟨h.2.1, h.2.2.2.1 rfl rfl⟩

/-- C6 counterexample: a late voice result delivered on step 3 of a
pre-book wizard changes the state, switching the selected service. -/
theorem voice_late_callback_cex :
    stLeftStep2.step ≠ 2
    ∧ (handleVoiceResult stLeftStep2 ("loan inquiry please")).1 ≠ stLeftStep2
    ∧ (handleVoiceResult stLeftStep2 ("loan inquiry please")).1.selectedService
        = some ("Loan_Inquiry") := by
  decide

/-- C6 (amended): the voice result handler applies no step guard; delivered
in a state whose step is not 2 it is processed all the same: a matching
transcript sets the selection (leaving the step unchanged) and only a
non-matching transcript leaves the state unchanged.  Isolation relies
solely on the voice input being rendered only on step 2. -/
theorem voice_no_step_guard (st : WizardState) (t : String) (_h : st.step ≠ 2) :
    (findService st.services (jsToLower t) = none → handleVoiceResult st t = (st, none))
    ∧ (∀ s, findService st.services (jsToLower t) = some s →
        (handleVoiceResult st t).1.selectedService = some s.id
        ∧ (handleVoiceResult st t).1.step = st.step
        ∧ (handleVoiceResult st t).1.isListening = false) := by
  constructor
  · intro hnone
    exact handleVoiceResult_none st t hnone
  · intro s hs
    rw [handleVoiceResult_found st t s hs]
    unfold handleVoiceFound
    by_cases hcond : st.mobile.length = 10 ∧ st.mode = Mode.walk_in
    · rw [if_pos hcond]
      have hp := handleBookSlot_fst
        { st with selectedService := some s.id, isListening := false } (some s.id)
      exact ⟨hp.1, hp.2.2, hp.2.1⟩
    · rw [if_neg hcond]
      exact ⟨rfl, rfl, rfl⟩

/-- C6 witness: the amended theorem evaluated on the step-3 state with the
matching transcript. -/
theorem voice_no_step_guard_witness :
    (handleVoiceResult stLeftStep2 ("loan inquiry please")).1.selectedService
      = some ("Loan_Inquiry")
    ∧ (handleVoiceResult stLeftStep2 ("loan inquiry please")).1.step = stLeftStep2.step := by
  have h := (voice_no_step_guard stLeftStep2 ("loan inquiry please") (by decide)).2
    ⟨"Loan_Inquiry", "Loan_Inquiry"⟩ (by decide)
  exact ⟨h.1, h.2.1⟩

/-- C7 counterexample: while a booking request is outstanding
(loading = true) a voice match on a walk-in wizard with a valid mobile
issues a second booking request. -/
theorem voice_bypasses_loading_cex :
    stRequestInFlight.loading = true
    ∧ (handleVoiceResult stRequestInFlight ("cash deposit please")).2.isSome = true := by
  decide

/-- C7 (amended): while loading is true the tap paths (step-2 service
button and step-3 confirm button) are disabled and never issue a request,
but the voice auto-submission path has no loading guard: a voice match in
walk_in mode with a 10-digit mobile issues a booking request even while
one is outstanding. -/
theorem single_flight_amended (st : WizardState) (svc : ServiceCatalogEntry)
    (t : String) (hload : st.loading = true) :
    clickService st svc = (st, none)
    ∧ confirmAppointment st = (st, none)
    ∧ (∀ s, st.mode = Mode.walk_in → st.mobile.length = 10 →
        findService st.services (jsToLower t) = some s →
        (handleVoiceResult st t).2 ≠ none) := by
  refine ⟨?_, ?_, ?_⟩
  · unfold clickService
    rw [if_pos (Or.inr hload)]
  · unfold confirmAppointment
    rw [if_pos (Or.inr (Or.inr (Or.inl hload)))]
  · intro s hmode hlen hfind
    rw [handleVoiceResult_found st t s hfind]
    unfold handleVoiceFound
    rw [if_pos ⟨hlen, hmode⟩]
    exact handleBookSlot_submits _ _ hlen hmode

/-- C7 witness: the amended theorem evaluated on the in-flight walk-in
state with a matching transcript. -/
theorem single_flight_amended_witness :
    clickService stRequestInFlight ⟨"Cash_Deposit", "Cash_Deposit"⟩
      = (stRequestInFlight, none)
    ∧ confirmAppointment stRequestInFlight = (stRequestInFlight, none)
    ∧ (handleVoiceResult stRequestInFlight ("cash deposit please")).2 ≠ none := by
  have h := single_flight_amended stRequestInFlight ⟨"Cash_Deposit", "Cash_Deposit"⟩
    ("cash deposit please") rfl
  exact ⟨h.1, h.2.1, h.2.2 ⟨"Cash_Deposit", "Cash_Deposit"⟩ rfl rfl (by decide)⟩

/-- C10: every invocation of the slot generator produces exactly the 16
half-hour times 09:00 through 16:30 in strictly ascending order, each at
or after 09:00 and strictly before 17:00 on a half-hour boundary and
zero-padded to five characters; only the availability flags vary between
invocations. -/
theorem generateSlots_times (avail : Nat → Bool) :
    (generateSlots avail).map TimeSlot.time = slotTimes
    ∧ slotTimes = ["09:00", "09:30", "10:00", "10:30", "11:00", "11:30",
        "12:00", "12:30", "13:00", "13:30", "14:00", "14:30", "15:00", "15:30",
        "16:00", "16:30"]
    ∧ (generateSlots avail).length = 16
    ∧ ascending (slotTimes.map slotMinutes) = true
    ∧ (∀ s ∈ slotTimes, 540 ≤ slotMinutes s ∧ slotMinutes s < 1020
        ∧ slotMinutes s % 30 = 0 ∧ s.length = 5) := by
  have h1 : (generateSlots avail).map TimeSlot.time = slotTimes := by
    unfold generateSlots
    rw [List.map_map]
    exact List.enum_map_snd slotTimes
  refine ⟨h1, by decide, ?_, by decide, by decide⟩
  have := congrArg List.length h1
  simpa using this.trans (by decide)

/-! ## Helper lemmas for the scheduled-time construction -/

theorem digitChar_isDigit {d : Nat} (h : d < 10) : (Nat.digitChar d).isDigit = true := by
  interval_cases d <;> decide

theorem digitChar_toNat {d : Nat} (h : d < 10) : (Nat.digitChar d).toNat = 48 + d := by
  interval_cases d <;> decide

theorem natToCharsAux_digits (fuel : Nat) :
    ∀ n, ∀ c ∈ natToCharsAux fuel n, c.isDigit = true := by
  induction fuel with
  | zero =>
    intro n c hc
    simp [natToCharsAux] at hc
  | succ fuel ih =>
    intro n c hc
    unfold natToCharsAux at hc
    by_cases h : n < 10
    · rw [if_pos h] at hc
      simp at hc
      rw [hc]
      exact digitChar_isDigit h
    · rw [if_neg h] at hc
      rcases List.mem_append.mp hc with h1 | h1
      · exact ih _ c h1
      · simp at h1
        rw [h1]
        exact digitChar_isDigit (Nat.mod_lt _ (by omega))

theorem jsNumToString_digits (n : Nat) :
    ∀ c ∈ (jsNumToString n).data, c.isDigit = true :=
  natToCharsAux_digits (n + 1) n

theorem pad2_digits (n : Nat) : ∀ c ∈ (pad2 n).data, c.isDigit = true := by
  unfold pad2
  by_cases h : 2 ≤ (jsNumToString n).length
  · rw [if_pos h]
    exact jsNumToString_digits n
  · rw [if_neg h]
    intro c hc
    rcases List.mem_cons.mp hc with rfl | hc
    · decide
    · exact jsNumToString_digits n c hc

theorem takeWhile_digits :
    ∀ l : List Char, (∀ c ∈ l, c.isDigit = true) → l.takeWhile Char.isDigit = l := by
  intro l
  induction l with
  | nil => intro h; rfl
  | cons c t ih =>
    intro h
    have hc : c.isDigit = true := h c (List.mem_cons_self c t)
    have ht := ih fun x hx => h x (List.mem_cons_of_mem c hx)
    simp [List.takeWhile_cons, hc, ht]

theorem digitsVal_append (xs : List Char) (c : Char) :
    digitsVal (xs ++ [c]) = 10 * digitsVal xs + (c.toNat - 48) := by
  unfold digitsVal
  rw [List.foldl_append]
  rfl

theorem natToCharsAux_val : ∀ fuel n, n < fuel → digitsVal (natToCharsAux fuel n) = n := by
  intro fuel
  induction fuel with
  | zero =>
    intro n h
    omega
  | succ fuel ih =>
    intro n h
    unfold natToCharsAux
    by_cases h10 : n < 10
    · rw [if_pos h10]
      simp [digitsVal, digitChar_toNat h10]
    · rw [if_neg h10]
      rw [digitsVal_append]
      have hdiv : n / 10 < fuel := by
        have := Nat.div_lt_self (show 0 < n by omega) (show 1 < 10 by omega)
        omega
      rw [ih _ hdiv, digitChar_toNat (Nat.mod_lt _ (show 0 < 10 by omega))]
      omega

theorem jsParseInt_numToString (n : Nat) : jsParseInt (jsNumToString n) = n := by
  unfold jsParseInt
  rw [takeWhile_digits _ (jsNumToString_digits n)]
  exact natToCharsAux_val (n + 1) n (Nat.lt_succ_self n)

theorem digitsVal_cons_zero (l : List Char) : digitsVal ('0' :: l) = digitsVal l := rfl

theorem jsParseInt_pad2 (n : Nat) : jsParseInt (pad2 n) = n := by
  unfold pad2
  by_cases h : 2 ≤ (jsNumToString n).length
  · rw [if_pos h]
    exact jsParseInt_numToString n
  · rw [if_neg h]
    unfold jsParseInt
    show digitsVal (('0' :: (jsNumToString n).data).takeWhile Char.isDigit) = n
    have hd : ∀ c ∈ ('0' :: (jsNumToString n).data), c.isDigit = true := by
      intro c hc
      rcases List.mem_cons.mp hc with rfl | hc
      · decide
      · exact jsNumToString_digits n c hc
    rw [takeWhile_digits _ hd, digitsVal_cons_zero]
    exact natToCharsAux_val (n + 1) n (Nat.lt_succ_self n)

theorem isDigit_ne_dash {c : Char} (h : c.isDigit = true) : c ≠ '-' := by
  intro hc
  rw [hc] at h
  exact absurd h (by decide)

theorem isDigit_ne_colon {c : Char} (h : c.isDigit = true) : c ≠ ':' := by
  intro hc
  rw [hc] at h
  exact absurd h (by decide)

theorem splitCharAux_no_sep (sep : Char) :
    ∀ xs acc : List Char, (∀ c ∈ xs, c ≠ sep) →
      splitCharAux sep xs acc = [acc.reverse ++ xs] := by
  intro xs
  induction xs with
  | nil =>
    intro acc h
    simp [splitCharAux]
  | cons c t ih =>
    intro acc h
    have hc : c ≠ sep := h c (List.mem_cons_self c t)
    unfold splitCharAux
    rw [if_neg hc, ih (c :: acc) fun x hx => h x (List.mem_cons_of_mem c hx)]
    simp

theorem splitCharAux_sep (sep : Char) :
    ∀ xs ys acc : List Char, (∀ c ∈ xs, c ≠ sep) →
      splitCharAux sep (xs ++ sep :: ys) acc
        = (acc.reverse ++ xs) :: splitCharAux sep ys [] := by
  intro xs
  induction xs with
  | nil =>
    intro ys acc h
    show (if sep = sep then acc.reverse :: splitCharAux sep ys []
      else splitCharAux sep ys (sep :: acc)) = _
    rw [if_pos rfl]
    simp
  | cons c t ih =>
    intro ys acc h
    have hc : c ≠ sep := h c (List.mem_cons_self c t)
    show (if c = sep then acc.reverse :: splitCharAux sep (t ++ sep :: ys) []
      else splitCharAux sep (t ++ sep :: ys) (c :: acc)) = _
    rw [if_neg hc, ih ys (c :: acc) fun x hx => h x (List.mem_cons_of_mem c hx)]
    simp

theorem jsSplit_dateStr (y m d : Nat) :
    jsSplit '-' (dateStr y m d) = [jsNumToString y, pad2 m, pad2 d] := by
  unfold jsSplit dateStr
  show (splitCharAux '-' ((jsNumToString y).data ++
      ('-' :: ((pad2 m).data ++ ('-' :: (pad2 d).data)))) []).map String.mk = _
  rw [splitCharAux_sep '-' (jsNumToString y).data _ []
      fun c hc => isDigit_ne_dash (jsNumToString_digits y c hc)]
  rw [splitCharAux_sep '-' (pad2 m).data _ []
      fun c hc => isDigit_ne_dash (pad2_digits m c hc)]
  rw [splitCharAux_no_sep '-' (pad2 d).data []
      fun c hc => isDigit_ne_dash (pad2_digits d c hc)]
  simp only [List.reverse_nil, List.nil_append, List.map_cons, List.map_nil]

theorem jsSplit_timeStr (hh mi : Nat) :
    jsSplit ':' (timeStr hh mi) = [pad2 hh, pad2 mi] := by
  unfold jsSplit timeStr
  show (splitCharAux ':' ((pad2 hh).data ++ (':' :: (pad2 mi).data)) []).map String.mk = _
  rw [splitCharAux_sep ':' (pad2 hh).data _ []
      fun c hc => isDigit_ne_colon (pad2_digits hh c hc)]
  rw [splitCharAux_no_sep ':' (pad2 mi).data []
      fun c hc => isDigit_ne_colon (pad2_digits mi c hc)]
  simp only [List.reverse_nil, List.nil_append, List.map_cons, List.map_nil]

theorem rollDays_stop (fuel y m d : Nat) (h : d ≤ daysInMonth y m) :
    rollDays fuel y m d = (y, m, d) := by
  cases fuel with
  | zero => rfl
  | succ fuel =>
    unfold rollDays
    rw [if_pos h]

theorem mkJsDate_id (y m d hh mi : Nat) (hm1 : 1 ≤ m) (hm2 : m ≤ 12)
    (hd2 : d ≤ daysInMonth y m) (hhle : hh ≤ 23) (hmile : mi ≤ 59) :
    mkJsDate y (m - 1) d hh mi = ⟨y, m, d, hh, mi⟩ := by
  simp only [mkJsDate]
  rw [Nat.mod_eq_of_lt (show mi < 60 by omega),
    Nat.div_eq_of_lt (show mi < 60 by omega), Nat.add_zero,
    Nat.mod_eq_of_lt (show hh < 24 by omega),
    Nat.div_eq_of_lt (show hh < 24 by omega), Nat.add_zero,
    Nat.div_eq_of_lt (show m - 1 < 12 by omega),
    Nat.mod_eq_of_lt (show m - 1 < 12 by omega), Nat.add_zero,
    show m - 1 + 1 = m by omega,
    rollDays_stop d y m d hd2]

/-- C8: for a pre-book submission whose chosen date displays as YYYY-MM-DD
(a valid calendar date) and whose chosen slot displays as HH:mm, the
scheduled_time string sent in the booking request is exactly the local
wall-clock string YYYY-MM-DDTHH:mm:00 for that displayed date and time: no
timezone (UTC) conversion is applied, because the local Date constructor
and the local getters read the same wall clock. -/
theorem scheduled_time_local (y m d hh mi : Nat) (hm1 : 1 ≤ m) (hm2 : m ≤ 12)
    (hd2 : d ≤ daysInMonth y m) (hhle : hh ≤ 23) (hmile : mi ≤ 59) :
    mkScheduledTime (dateStr y m d) (timeStr hh mi)
      = dateStr y m d ++ "T" ++ timeStr hh mi ++ ":00"
    ∧ ∀ (st : WizardState) (svc : Option String), st.mode = Mode.pre_book →
        st.selectedDate = dateStr y m d → st.selectedTimeSlot = some (timeStr hh mi) →
        st.mobile.length = 10 →
        ∃ req, (handleBookSlot st svc).2 = some req
          ∧ req.scheduled_time = some (dateStr y m d ++ "T" ++ timeStr hh mi ++ ":00") := by
  have htne : timeStr hh mi ≠ "" := by
    intro h
    have h2 : (pad2 hh).data ++ (':' :: (pad2 mi).data) = ([] : List Char) :=
      congrArg String.data h
    simp at h2
  have hmain : mkScheduledTime (dateStr y m d) (timeStr hh mi)
      = dateStr y m d ++ "T" ++ timeStr hh mi ++ ":00" := by
    have hD := jsSplit_dateStr y m d
    have hT := jsSplit_timeStr hh mi
    simp only [mkScheduledTime, hD, hT, List.getD_cons_zero, List.getD_cons_succ,
      jsParseInt_numToString, jsParseInt_pad2]
    rw [mkJsDate_id y m d hh mi hm1 hm2 hd2 hhle hmile]
    apply String.ext
    have mkd : ∀ l : List Char, (String.mk l).data = l := fun l => rfl
    have hdash : ("-" : String).data = ['-'] := rfl
    have hTc : ("T" : String).data = ['T'] := rfl
    have hcol : (":" : String).data = [':'] := rfl
    have h00 : (":00" : String).data = [':', '0', '0'] := rfl
    simp only [String.data_append, dateStr, timeStr, mkd, hdash, hTc, hcol, h00,
      List.append_assoc, List.cons_append, List.singleton_append, List.nil_append]
  refine ⟨hmain, ?_⟩
  intro st svc hmode hdate hslot hlen
  have hne : st.mobile ≠ "" := by
    intro h
    rw [h] at hlen
    exact absurd hlen (by decide)
  have hguard : ¬(st.mobile = "" ∨ st.mobile.length < 10) := by
    rintro (h | h)
    · exact hne h
    · omega
  unfold handleBookSlot
  rw [if_neg hguard]
  rw [if_neg (by
    rintro ⟨-, hf⟩
    rw [hslot] at hf
    simp [jsIsFalsyStr] at hf
    exact htne hf)]
  refine ⟨_, rfl, ?_⟩
  simp only [hmode, hslot, hdate]
  rw [if_neg htne, hmain]

/-- C8 witness: the construction evaluated at the displayed date 2026-10-12
and slot 09:30. -/
theorem scheduled_time_local_witness :
    mkScheduledTime (dateStr 2026 10 12) (timeStr 9 30)
      = dateStr 2026 10 12 ++ "T" ++ timeStr 9 30 ++ ":00"
    ∧ dateStr 2026 10 12 = "2026-10-12"
    ∧ timeStr 9 30 = "09:30"
    ∧ mkScheduledTime ("2026-10-12") ("09:30") = "2026-10-12T09:30:00" := by
  refine ⟨(scheduled_time_local 2026 10 12 9 30 (by decide) (by decide) (by decide)
    (by decide) (by decide)).1, by decide, by decide, by decide⟩

end DASO
